import Mathlib

/-!
Verification of the `tencent-serverless-sdk` signing core
(`src/packages/capi/src/utils.ts` and `src/packages/capi/src/index.ts`).

JavaScript runtime values are modelled shallowly:
* plain objects are insertion-ordered association lists with unique keys
  (`setField` overwrites in place, appends otherwise, matching JS property
  assignment; the numeric-key reordering of `Object.keys` is not modelled
  because no signing-relevant key is an array index);
* scalar values carry the JS primitives the signing code distinguishes,
  with `nan` as a separate constructor of the number type;
* the Node `crypto` digests are an explicit parameter (`Crypto`), since
  the repository only calls into them; everything proved here holds for
  every choice of the digest functions.
-/

/-- JS scalar (primitive) values as distinguished by the signing code. -/
inductive JSScalar where
  | undefined
  | null
  | nan
  | num (n : Int)
  | bool (b : Bool)
  | str (s : String)
  deriving DecidableEq, Repr

/-- JS runtime values: scalars, plain objects (insertion-ordered fields) and
arrays. -/
inductive JSValue where
  | scalar (s : JSScalar)
  | obj (fields : List (String × JSValue))
  | arr (elems : List JSValue)
  deriving Repr

/-- Keys of an association-list object, in order. -/
def keys {α : Type} (l : List (String × α)) : List String :=
  l.map Prod.fst

/-- JS property read, `o[k]`, as an `Option`. -/
def getField? {α : Type} : List (String × α) → String → Option α
  | [], _ => none
  | (k', v) :: rest, k => if k' = k then some v else getField? rest k

/-- JS property write `o[k] = v`: overwrite in place, else append. -/
def setField {α : Type} : List (String × α) → String → α → List (String × α)
  | [], k, v => [(k, v)]
  | (k', v') :: rest, k, v =>
      if k' = k then (k', v) :: rest else (k', v') :: setField rest k v

/-- `Object.assign(target, source)`: copy the source's own properties onto the
target, in order (the JS call mutates and returns `target`; the model returns
the updated value). -/
def assign {α : Type} (target source : List (String × α)) : List (String × α) :=
  source.foldl (fun acc kv => setField acc kv.1 kv.2) target

/-- Build a fresh JS object from a stream of property assignments
(`flat[newKey] = value` in dot-qs). -/
def mkObj {α : Type} (l : List (String × α)) : List (String × α) :=
  l.foldl (fun acc kv => setField acc kv.1 kv.2) []

/-- JS property read on an object whose values are scalars, with the JS
`undefined` default for a missing property. -/
def getFieldS (o : List (String × JSScalar)) (k : String) : JSScalar :=
  (getField? o k).getD .undefined

/-- JS property read returning `undefined` for a missing property. -/
def getFieldV (o : List (String × JSValue)) (k : String) : JSValue :=
  (getField? o k).getD (.scalar .undefined)

/-- JS truthiness of a scalar. -/
def jsTruthyS : JSScalar → Bool
  | .undefined => false
  | .null => false
  | .nan => false
  | .num n => n != 0
  | .bool b => b
  | .str s => s ≠ ""

/-- JS truthiness of a value (objects and arrays are always truthy). -/
def jsTruthyV : JSValue → Bool
  | .scalar s => jsTruthyS s
  | .obj _ => true
  | .arr _ => true

/-- JS string conversion of a scalar, as performed by template literals. -/
def jsScalarToString : JSScalar → String
  | .undefined => "undefined"
  | .null => "null"
  | .nan => "NaN"
  | .num n => toString n
  | .bool b => cond b "true" "false"
  | .str s => s

/-- `x || dflt` on an optional string: JS picks the default when the value is
`undefined` or falsy (the empty string). -/
def jsOr (v : Option String) (dflt : String) : String :=
  match v with
  | some s => if s = "" then dflt else s
  | none => dflt

/-- Template-literal rendering of an optional string: `undefined` prints as
the string `"undefined"`. -/
def jsUndefOr (v : Option String) : String :=
  match v with
  | some s => s
  | none => "undefined"

/-- First index of a character in a string, `-1` when absent
(`String.prototype.indexOf` for a one-character needle; positions are counted
in characters, which agrees with UTF-16 indices on whether the result is 0). -/
def firstIndexAux (c : Char) : List Char → Nat → Int
  | [], _ => -1
  | x :: xs, i => if x = c then Int.ofNat i else firstIndexAux c xs (i + 1)

/-- `s.indexOf(c)`. -/
def jsIndexOf (s : String) (c : Char) : Int :=
  firstIndexAux c s.data 0

/-- `key.replace(/_/g, '.')`. -/
def underscoreToDot (s : String) : String :=
  String.mk (s.data.map fun c => if c = '_' then '.' else c)

/-- UTF-8 encoding of a single code point as byte values. -/
def utf8Char (n : Nat) : List Nat :=
  if n < 0x80 then [n]
  else if n < 0x800 then [0xC0 + n / 64, 0x80 + n % 64]
  else if n < 0x10000 then [0xE0 + n / 4096, 0x80 + n / 64 % 64, 0x80 + n % 64]
  else [0xF0 + n / 262144, 0x80 + n / 4096 % 64, 0x80 + n / 64 % 64, 0x80 + n % 64]

/-- UTF-8 bytes of a string (`Buffer.from(str, 'utf8')`). -/
def utf8 (s : String) : List Nat :=
  List.flatten (s.data.map fun c => utf8Char c.toNat)

/-- UTF-16 code units of a single character. -/
def charUtf16 (c : Char) : List Nat :=
  let n := c.toNat
  if n < 0x10000 then [n]
  else [0xD800 + (n - 0x10000) / 0x400, 0xDC00 + (n - 0x10000) % 0x400]

/-- UTF-16 code units of a string. -/
def utf16Units (s : String) : List Nat :=
  List.flatten (s.data.map charUtf16)

/-- Lexicographic `≤` on code-unit sequences. -/
def unitsLe : List Nat → List Nat → Bool
  | [], _ => true
  | _ :: _, [] => false
  | a :: as, b :: bs => if a < b then true else if b < a then false else unitsLe as bs

/-- JS default string comparison (`<` over UTF-16 code units), as `≤`. -/
def u16Le (a b : String) : Bool :=
  unitsLe (utf16Units a) (utf16Units b)

/-- Insert into a sorted list of keys. -/
def insertKey (x : String) : List String → List String
  | [] => [x]
  | y :: ys => if u16Le x y then x :: y :: ys else y :: insertKey x ys

/-- `Array.prototype.sort()` on strings: sorted by UTF-16 code-unit order. -/
def sortKeys (l : List String) : List String :=
  l.foldr insertKey []

/-- Lowercase hex digit. -/
def hexDigitL (n : Nat) : Char :=
  "0123456789abcdef".data.getD n '0'

/-- Uppercase hex digit. -/
def hexDigitU (n : Nat) : Char :=
  "0123456789ABCDEF".data.getD n '0'

/-- `.digest('hex')`: lowercase hex of a byte sequence. -/
def toHex (bs : List Nat) : String :=
  String.mk (bs.foldr (fun b acc => hexDigitL (b / 16 % 16) :: hexDigitL (b % 16) :: acc) [])

/-- The base64 alphabet. -/
def base64Chars : List Char :=
  "ABCDEFGHIJKLMNOPQRSTUVWXYZabcdefghijklmnopqrstuvwxyz0123456789+/".data

/-- One base64 digit. -/
def b64Char (n : Nat) : Char :=
  base64Chars.getD n 'A'

/-- `.toString('base64')` on a byte sequence. -/
def base64Encode : List Nat → String
  | [] => ""
  | [a] => String.mk [b64Char (a / 4 % 64), b64Char (a % 4 * 16), '=', '=']
  | [a, b] => String.mk [b64Char (a / 4 % 64), b64Char (a % 4 * 16 + b / 16 % 16), b64Char (b % 16 * 4), '=']
  | a :: b :: c :: rest =>
      String.mk [b64Char (a / 4 % 64), b64Char (a % 4 * 16 + b / 16 % 16),
        b64Char (b % 16 * 4 + c / 64 % 4), b64Char (c % 64)] ++ base64Encode rest

/-- `String.prototype.toUpperCase()` over the ASCII range the signing code
exercises. -/
def jsToUpperChar (c : Char) : Char :=
  if 97 ≤ c.toNat && c.toNat ≤ 122 then Char.ofNat (c.toNat - 32) else c

/-- Uppercase a string. -/
def jsToUpper (s : String) : String :=
  String.mk (s.data.map jsToUpperChar)

/-- Join a nesting prefix with a child key (`prefix ? prefix + '.' + key : key`). -/
def joinKey (pre k : String) : String :=
  if pre = "" then k else pre ++ "." ++ k

mutual
/-- Modelled from the spec: the Parameter Flattener of `dot-qs`
(`dotQs.flatten`), whose source is an external dependency not present under
`src/`.  Spec §4.1: every leaf value is reachable by a single dotted-path
key; nested maps produce `parent.child` keys; sequences produce
`parent.<index>` keys with zero-based integer indices; null and empty-string
values are kept. -/
def flattenVal (pre : String) : JSValue → List (String × JSScalar)
  | .scalar s => [(pre, s)]
  | .obj fs => flattenFields pre fs
  | .arr es => flattenArr pre 0 es

/-- Flatten the fields of a nested object under a prefix. -/
def flattenFields (pre : String) : List (String × JSValue) → List (String × JSScalar)
  | [] => []
  | (k, v) :: rest => flattenVal (joinKey pre k) v ++ flattenFields pre rest

/-- Flatten the elements of a nested array under a prefix. -/
def flattenArr (pre : String) (i : Nat) : List JSValue → List (String × JSScalar)
  | [] => []
  | v :: rest => flattenVal (joinKey pre (Nat.repr i)) v ++ flattenArr pre (i + 1) rest
end

/-- Modelled from the spec: `dotQs.flatten(payload)` on a JS object — the leaf
assignments written into a fresh flat object. -/
def dotQsFlatten (fs : List (String × JSValue)) : List (String × JSScalar) :=
  mkObj (flattenFields "" fs)

/-- Re-inject a flat scalar map as a JS object, for re-flattening. -/
def scalarFields (l : List (String × JSScalar)) : List (String × JSValue) :=
  l.map fun kv => (kv.1, .scalar kv.2)

/-- One escaped character of a JSON string literal. -/
def jsonEscapeChar (c : Char) : List Char :=
  if c = '"' then ['\\', '"']
  else if c = '\\' then ['\\', '\\']
  else if c = Char.ofNat 8 then ['\\', 'b']
  else if c = Char.ofNat 9 then ['\\', 't']
  else if c = Char.ofNat 10 then ['\\', 'n']
  else if c = Char.ofNat 12 then ['\\', 'f']
  else if c = Char.ofNat 13 then ['\\', 'r']
  else if c.toNat < 32 then
    ['\\', 'u', '0', '0', hexDigitL (c.toNat / 16), hexDigitL (c.toNat % 16)]
  else [c]

/-- A JSON string literal. -/
def jsonQuote (s : String) : String :=
  "\"" ++ String.mk (List.flatten (s.data.map jsonEscapeChar)) ++ "\""

/-- JSON rendering of a scalar property value: `undefined` properties are
omitted (`none`), `NaN` serializes as `null`. -/
def jsonScalar : JSScalar → Option String
  | .undefined => none
  | .null => some "null"
  | .nan => some "null"
  | .num n => some (toString n)
  | .bool b => some (cond b "true" "false")
  | .str s => some (jsonQuote s)

/-- `JSON.stringify` restricted to the flat (all-scalar) objects the signing
code applies it to — `dotQs.flatten` only ever returns such objects. -/
def jsonStringifyFlat (fs : List (String × JSScalar)) : String :=
  "\x7b" ++ String.intercalate ","
    (fs.filterMap fun kv => (jsonScalar kv.2).map fun v => jsonQuote kv.1 ++ ":" ++ v) ++ "\x7d"

/-- Bytes left unescaped by `querystring.escape`. -/
def qsUnreserved (n : Nat) : Bool :=
  (0x30 ≤ n && n ≤ 0x39) || (0x41 ≤ n && n ≤ 0x5A) || (0x61 ≤ n && n ≤ 0x7A) ||
  (n == 0x2D) || (n == 0x2E) || (n == 0x5F) || (n == 0x7E) ||
  (n == 0x21) || (n == 0x2A) || (n == 0x27) || (n == 0x28) || (n == 0x29)

/-- `querystring.escape`: percent-encode the UTF-8 bytes, uppercase hex. -/
def qsEscape (s : String) : String :=
  String.mk (List.flatten ((utf8 s).map fun b =>
    if qsUnreserved b then [Char.ofNat b] else ['%', hexDigitU (b / 16 % 16), hexDigitU (b % 16)]))

/-- `querystring`'s rendering of a primitive value (strings and finite
numbers and booleans keep their string form, everything else becomes ""). -/
def qsPrimitive : JSScalar → String
  | .str s => s
  | .num n => toString n
  | .bool b => cond b "true" "false"
  | _ => ""

/-- `qs.stringify` on a flat (all-scalar) object, as applied to the signed
payload. -/
def qsStringifyFlat (fs : List (String × JSScalar)) : String :=
  String.intercalate "&" (fs.map fun kv => qsEscape kv.1 ++ "=" ++ qsEscape (qsPrimitive kv.2))

/-- `qs.stringify` on an arbitrary value: non-objects stringify to ""
(the behaviour `Capi.request` hits when it stringifies `undefined`). -/
def qsStringifyVal : JSValue → String
  | .obj fs => qsStringifyFlat (fs.filterMap fun kv =>
      match kv.2 with
      | .scalar s => some (kv.1, s)
      | _ => none)
  | _ => ""

/-- The Node `crypto` digests used by the signers, supplied as a parameter:
`hash alg msg` is `createHash(alg).update(msg).digest()` and
`hmac alg key msg` is `createHmac(alg, key).update(msg).digest()`, over byte
sequences. -/
structure Crypto where
  hash : String → List Nat → List Nat
  hmac : String → List Nat → List Nat → List Nat

/-- `CapiOptions` (src/packages/capi/src/index.ts): optional fields are
`Option`; `ServiceType`/`Region`/`SecretId`/`SecretKey` are required strings
in the TypeScript interface. -/
structure CapiOptions where
  isV3 : Option Bool
  debug : Option Bool
  host : Option String
  baseHost : Option String
  path : Option String
  method : Option String
  protocol : Option String
  ServiceType : String
  Region : String
  SecretId : String
  SecretKey : String
  Token : Option String
  SignatureMethod : Option String
  RequestClient : Option String
  timeout : Option Int

/-- `HostParams` (utils.ts). -/
structure HostParams where
  ServiceType : String
  Region : String
  host : Option String
  baseHost : Option String
  path : Option String
  protocol : Option String

/-- The `HostParams` record built at the top of both signers. -/
def hostParamsOf (o : CapiOptions) : HostParams :=
  ⟨o.ServiceType, o.Region, o.host, o.baseHost, o.path, o.protocol⟩

/-- `getHost` (utils.ts 47–55): when `host` is falsy (absent or the empty
string) synthesize `ServiceType[.Region].baseHost`; otherwise return it. -/
def getHost (p : HostParams) (isV1 : Bool) : String :=
  let synth := p.ServiceType ++ (if isV1 then "" else "." ++ p.Region) ++ "." ++ jsUndefOr p.baseHost
  match p.host with
  | none => synth
  | some h => if h = "" then synth else h

/-- `getUrl` (utils.ts 57–63). -/
def getUrl (p : HostParams) (isV1 : Bool) : String :=
  let host := getHost p isV1
  let path := jsOr p.path "/"
  jsOr p.protocol "https" ++ "://" ++ host ++ path

/-- `sign` (utils.ts 65–72): HMAC with the given algorithm; the JS default
parameter makes an `undefined` algorithm mean `'sha256'`. -/
def sign (c : Crypto) (str : String) (secretKey : List Nat) (algorithm : Option String) : List Nat :=
  c.hmac (algorithm.getD "sha256") secretKey (utf8 str)

/-- `TencentSignResult` (utils.ts 25–31). -/
structure TencentSignResult where
  url : String
  payload : List (String × JSScalar)
  Host : String
  Authorization : String
  Timestamp : Int

/-- Result of a V3 signing call together with its effects: the state of the
caller's payload object after the call, and the `(topic, content)` pairs sent
to the logger. -/
structure V3Run where
  result : TencentSignResult
  callerPayload : List (String × JSValue)
  logs : List (String × String)

/-- The V3 signing key chain (utils.ts 124–126): `SecretDate`,
`SecretService`, `SecretSigning`. -/
def v3SigningKey (c : Crypto) (o : CapiOptions) (date : String) : List Nat :=
  let SecretDate := sign c date (utf8 ("TC3" ++ o.SecretKey)) none
  let SecretService := sign c o.ServiceType SecretDate none
  sign c "tc3_request" SecretService none

/-- `tencentSign` (utils.ts 81–150).  The wall clock is passed explicitly:
`Timestamp` is `moment().unix()` and `date` is `toISOString().slice(0, 10)`
of the same instant. -/
def tencentSign (c : Crypto) (payload0 : List (String × JSValue)) (o : CapiOptions)
    (Timestamp : Int) (date : String) : V3Run :=
  let hostParams := hostParamsOf o
  let url := getUrl hostParams false
  let Host := getHost hostParams false
  let Algorithm := "TC3-HMAC-SHA256"
  let payload := dotQsFlatten payload0
  let HTTPRequestMethod := jsToUpper (jsOr o.method "POST")
  let CanonicalURI := "/"
  let CanonicalQueryString := ""
  let CanonicalHeaders := "content-type:application/json\nhost:" ++ Host ++ "\n"
  let SignedHeaders := "content-type;host"
  let HashedRequestPayload := toHex (c.hash "sha256" (utf8 (jsonStringifyFlat payload)))
  let CanonicalRequest := HTTPRequestMethod ++ "\n" ++ CanonicalURI ++ "\n" ++
    CanonicalQueryString ++ "\n" ++ CanonicalHeaders ++ "\n" ++ SignedHeaders ++ "\n" ++
    HashedRequestPayload
  let CredentialScope := date ++ "/" ++ o.ServiceType ++ "/tc3_request"
  let HashedCanonicalRequest := toHex (c.hash "sha256" (utf8 CanonicalRequest))
  let StringToSign := Algorithm ++ "\n" ++ toString Timestamp ++ "\n" ++
    CredentialScope ++ "\n" ++ HashedCanonicalRequest
  let SecretSigning := v3SigningKey c o date
  let Signature := toHex (c.hmac "sha256" SecretSigning (utf8 StringToSign))
  let Authorization := Algorithm ++ " Credential=" ++ o.SecretId ++ "/" ++
    CredentialScope ++ ", SignedHeaders=" ++ SignedHeaders ++ ", Signature=" ++ Signature
  let logs := if o.debug.getD false then
      [("CanonicalRequest", CanonicalRequest), ("StringToSign", StringToSign),
       ("Signature", Signature), ("Authorization", Authorization)]
    else []
  ⟨⟨url, payload, Host, Authorization, Timestamp⟩, payload0, logs⟩

/-- `TencentSignResultV1` (utils.ts 33–37). -/
structure TencentSignResultV1 where
  url : String
  method : String
  signPath : String

/-- Result of a V1 signing call together with the state of the caller's
payload object after the call. -/
structure V1Run where
  result : TencentSignResultV1
  callerPayload : List (String × JSValue)

/-- The V1 field injection (utils.ts 177–185): property assignments performed
on the caller's payload object before flattening. -/
def v1InjectFields (payload : List (String × JSValue)) (o : CapiOptions)
    (Timestamp Nonce : Int) : List (String × JSValue) :=
  let p := setField payload "Region" (.scalar (.str o.Region))
  let p := setField p "Nonce" (.scalar (.num Nonce))
  let p := setField p "Timestamp" (.scalar (.num Timestamp))
  let p := setField p "SecretId" (.scalar (.str o.SecretId))
  let p := setField p "RequestClient" (.scalar (.str "SDK_NODEJS_v0.0.1"))
  if o.SignatureMethod = some "sha256" then
    setField p "SignatureMethod" (.scalar (.str "HmacSHA256"))
  else p

/-- `(options.method || 'POST').toUpperCase()` (utils.ts 190). -/
def v1Method (o : CapiOptions) : String :=
  jsToUpper (jsOr o.method "POST")

/-- One iteration of the V1 query-string loop (utils.ts 193–210): the piece
appended to `qstr` for one sorted key ("" when the iteration `return`s). -/
def v1PairString (method : String) (flat : List (String × JSScalar)) (key : String) : String :=
  if key = "" then ""
  else
    let key := if jsIndexOf key '_' ≠ 0 then underscoreToDot key else key
    let val := getFieldS flat key
    if method == "POST" && jsTruthyS val &&
        (match val with | .str s => s.data.head? == some '@' | _ => false) then ""
    else
      let val := match val with
        | .undefined => JSScalar.str ""
        | .null => JSScalar.str ""
        | .nan => JSScalar.str ""
        | v => v
      "&" ++ key ++ "=" ++ jsScalarToString val

/-- The V1 canonical query string (utils.ts 189–212): fold the loop over the
sorted keys of the flattened payload, then `slice(1)`. -/
def v1Qstr (method : String) (flat : List (String × JSScalar)) : String :=
  String.drop ((sortKeys (keys flat)).foldl (fun acc k => acc ++ v1PairString method flat k) "") 1

/-- The flat payload after `payload.Signature = ...` (utils.ts 214–218); its
`qs.stringify` is the returned `signPath`. -/
def v1FinalPayload (c : Crypto) (payload : List (String × JSValue)) (o : CapiOptions)
    (Timestamp Nonce : Int) : List (String × JSScalar) :=
  let Host := getHost (hostParamsOf o) true
  let flat := dotQsFlatten (v1InjectFields payload o Timestamp Nonce)
  let method := v1Method o
  let qstr := v1Qstr method flat
  let signature := base64Encode (sign c (method ++ Host ++ jsUndefOr o.path ++ "?" ++ qstr)
    (utf8 o.SecretKey) o.SignatureMethod)
  setField flat "Signature" (.str signature)

/-- `tencentSignV1` (utils.ts 159–225).  `Timestamp` is `moment().unix()` and
`Nonce` is the pseudo-random draw, both passed explicitly.  The caller's
payload object is left holding the injected standard fields: the later
`payload = dotQs.flatten(payload)` only rebinds the local variable, and
`payload.Signature = ...` lands on the new flat object. -/
def tencentSignV1 (c : Crypto) (payload : List (String × JSValue)) (o : CapiOptions)
    (Timestamp Nonce : Int) : V1Run :=
  let hostParams := hostParamsOf o
  let url := getUrl hostParams true
  let injected := v1InjectFields payload o Timestamp Nonce
  let method := v1Method o
  ⟨⟨url, method, qsStringifyFlat (v1FinalPayload c payload o Timestamp Nonce)⟩, injected⟩

/-- `Capi.defaultOptions` (index.ts 45–55) as a JS object. -/
def defaultOptionsObj : List (String × JSValue) :=
  [("path", .scalar (.str "/")), ("method", .scalar (.str "POST")),
   ("protocol", .scalar (.str "https")), ("baseHost", .scalar (.str "api.qcloud.com")),
   ("ServiceType", .scalar (.str "")), ("SecretId", .scalar (.str "")),
   ("SecretKey", .scalar (.str "")), ("Region", .scalar (.str "ap-guangzhou")),
   ("SignatureMethod", .scalar (.str "sha1"))]

/-- The mutable state of a `Capi` instance.  The constructor's
`assign(this.defaultOptions, options)` mutates `defaultOptions` and aliases it
as `this.options`, so a single merged object models both fields. -/
structure CapiState where
  options : List (String × JSValue)

/-- `new Capi(options)` (index.ts 57–59). -/
def capiInit (userOptions : List (String × JSValue)) : CapiState :=
  ⟨assign defaultOptionsObj userOptions⟩

/-- Read an optional string field off a JS options object. -/
def getStrField (o : List (String × JSValue)) (k : String) : Option String :=
  match getField? o k with
  | some (.scalar (.str s)) => some s
  | _ => none

/-- Read an optional boolean field off a JS options object. -/
def getBoolField (o : List (String × JSValue)) (k : String) : Option Bool :=
  match getField? o k with
  | some (.scalar (.bool b)) => some b
  | _ => none

/-- Read an optional integer field off a JS options object. -/
def getIntField (o : List (String × JSValue)) (k : String) : Option Int :=
  match getField? o k with
  | some (.scalar (.num n)) => some n
  | _ => none

/-- View the merged JS options object as the typed `CapiOptions` the signers
consume (the required string fields default to "" exactly as
`defaultOptions` supplies them). -/
def optionsOfObj (o : List (String × JSValue)) : CapiOptions :=
  ⟨getBoolField o "isV3", getBoolField o "debug", getStrField o "host",
   getStrField o "baseHost", getStrField o "path", getStrField o "method",
   getStrField o "protocol", (getStrField o "ServiceType").getD "",
   (getStrField o "Region").getD "", (getStrField o "SecretId").getD "",
   (getStrField o "SecretKey").getD "", getStrField o "Token",
   getStrField o "SignatureMethod", getStrField o "RequestClient",
   getIntField o "timeout"⟩

/-- `v || dflt` on JS values. -/
def jsOrV (v dflt : JSValue) : JSValue :=
  if jsTruthyV v then v else dflt

/-- The transport descriptor handed to the HTTP client (`rp.Options`). -/
structure ReqOption where
  url : String
  method : String
  json : Bool
  strictSSL : Bool
  headers : Option (List (String × JSValue))
  body : Option (List (String × JSScalar))
  form : Option JSValue
  timeout : Option JSValue

/-- `Capi.request` (index.ts 61–132), returning the transport descriptor and
the instance state after the call.  `assign(this.options, opts)` mutates the
stored options, so the post-call state holds the merged object.  In the V1
branch the source destructures `{ url, method, payload }` from
`tencentSignV1`, whose result has no `payload` property — the destructured
`payload` is JS `undefined`. -/
def capiRequest (c : Crypto) (st : CapiState) (data : List (String × JSValue))
    (opts : List (String × JSValue)) (isV3 : Bool) (Timestamp : Int) (date : String)
    (Nonce : Int) : ReqOption × CapiState :=
  let merged := assign st.options opts
  let options := optionsOfObj merged
  let restData := data.filter fun kv => kv.1 ≠ "Action" && kv.1 ≠ "Version"
  let timeoutOpt := if jsTruthyV (getFieldV merged "timeout") then
      some (getFieldV merged "timeout") else none
  if isV3 || jsTruthyV (getFieldV opts "isV3") then
    let run := tencentSign c restData options Timestamp date
    let headers := [("Content-Type", JSValue.scalar (.str "application/json")),
      ("Authorization", JSValue.scalar (.str run.result.Authorization)),
      ("Host", JSValue.scalar (.str run.result.Host)),
      ("X-TC-Action", getFieldV data "Action"),
      ("X-TC-Version", jsOrV (getFieldV data "Version") (.scalar (.str "2018-03-21"))),
      ("X-TC-Timestamp", JSValue.scalar (.num run.result.Timestamp)),
      ("X-TC-Region", JSValue.scalar (.str options.Region))]
    let headers := if jsTruthyV (getFieldV merged "Token") then
        setField headers "X-TC-Token" (getFieldV merged "Token") else headers
    let headers := if jsTruthyV (getFieldV opts "RequestClient") then
        setField headers "X-TC-RequestClient" (getFieldV opts "RequestClient") else headers
    (⟨run.result.url, "POST", true, false, some headers, some run.result.payload,
      none, timeoutOpt⟩, ⟨merged⟩)
  else
    let run := tencentSignV1 c data options Timestamp Nonce
    let payload : JSValue := .scalar .undefined
    if run.result.method == "POST" then
      (⟨run.result.url, run.result.method, true, false, none, none, some payload,
        timeoutOpt⟩, ⟨merged⟩)
    else
      (⟨run.result.url ++ "?" ++ qsStringifyVal payload, run.result.method, true, false,
        none, none, none, timeoutOpt⟩, ⟨merged⟩)

/-- LF-joined sections, as claim C1 describes the canonical request. -/
def lfJoin : List String → String
  | [] => ""
  | [x] => x
  | x :: xs => x ++ "\n" ++ lfJoin xs

/-- Truthiness of a JS number (`indexOf` result). -/
def jsTruthyInt (i : Int) : Bool :=
  i != 0

/-- Reference derivation of the V3 `Authorization` value, written from claim
C1's own wording: canonical request as LF-joined sections, string-to-sign,
the three-step key chain `k1`/`k2`/`k3`, lowercase-hex signature, and the
final credential template. -/
def v3AuthorizationRef (c : Crypto) (payload : List (String × JSValue)) (o : CapiOptions)
    (Timestamp : Int) (date : String) : String :=
  let Host := getHost (hostParamsOf o) false
  let canonicalRequest := lfJoin
    [jsToUpper (jsOr o.method "POST"),
     "/",
     "",
     "content-type:application/json\nhost:" ++ Host ++ "\n",
     "content-type;host",
     toHex (c.hash "sha256" (utf8 (jsonStringifyFlat (dotQsFlatten payload))))]
  let stringToSign := "TC3-HMAC-SHA256\n" ++ toString Timestamp ++ "\n" ++
    date ++ "/" ++ o.ServiceType ++ "/tc3_request" ++ "\n" ++
    toHex (c.hash "sha256" (utf8 canonicalRequest))
  let k1 := c.hmac "sha256" (utf8 ("TC3" ++ o.SecretKey)) (utf8 date)
  let k2 := c.hmac "sha256" k1 (utf8 o.ServiceType)
  let k3 := c.hmac "sha256" k2 (utf8 "tc3_request")
  let signature := toHex (c.hmac "sha256" k3 (utf8 stringToSign))
  "TC3-HMAC-SHA256 Credential=" ++ o.SecretId ++ "/" ++ date ++ "/" ++ o.ServiceType ++
    "/tc3_request, SignedHeaders=content-type;host, Signature=" ++ signature

/-- Concatenation of query-string pieces, as claim C2 describes it. -/
def concatPieces : List String → String
  | [] => ""
  | p :: ps => p ++ concatPieces ps

/-- One pair of the reference V1 query string, written from claim C2's own
wording: skip the empty-string key, rewrite a key exactly when `indexOf('_')`
is truthy, skip a pair when the method is POST and the value's first
character is `'@'`, serialize undefined/null/NaN as the empty string, render
as `&key=value`. -/
def v1RefPiece (method : String) (flat : List (String × JSScalar)) (k : String) : String :=
  if k = "" then ""
  else
    let k' := if jsTruthyInt (jsIndexOf k '_') then underscoreToDot k else k
    let v := getFieldS flat k'
    if method == "POST" && jsTruthyS v &&
        (match v with | .str s => s.data.head? == some '@' | _ => false) then ""
    else
      let v' := match v with
        | .undefined => JSScalar.str ""
        | .null => JSScalar.str ""
        | .nan => JSScalar.str ""
        | w => w
      "&" ++ k' ++ "=" ++ jsScalarToString v'

/-- Reference construction of the V1 canonical query string, written from
claim C2's own wording: iterate the lexicographically sorted keys of the
flattened map, concatenate the `&key=value` pairs and strip the leading
`&`. -/
def v1QstrRef (method : String) (flat : List (String × JSScalar)) : String :=
  String.drop (concatPieces ((sortKeys (keys flat)).map (v1RefPiece method flat))) 1

/-- Replace only the `debug` flag of an options record. -/
def withDebug (o : CapiOptions) (b : Option Bool) : CapiOptions :=
  ⟨o.isV3, b, o.host, o.baseHost, o.path, o.method, o.protocol, o.ServiceType,
   o.Region, o.SecretId, o.SecretKey, o.Token, o.SignatureMethod, o.RequestClient,
   o.timeout⟩

/-- A small concrete digest family for evaluating the embedding on closed
inputs; it distinguishes the algorithm name, the key and the message by
their lengths.  All universally quantified theorems hold for every `Crypto`;
this one only instantiates them. -/
def toyCrypto : Crypto :=
  ⟨fun alg msg => [(utf8 alg).length % 256, msg.length % 256],
   fun alg key msg => [(utf8 alg).length % 256, key.length % 256, msg.length % 256]⟩

/-- A concrete options record with no `SignatureMethod` configured. -/
def opts0 : CapiOptions :=
  ⟨none, none, none, some "api.qcloud.com", some "/", none, none,
   "cvm", "ap-guangzhou", "id", "key", none, none, none, none⟩

/-- A concrete options record whose credential fields are missing (empty). -/
def emptyCredOpts : CapiOptions :=
  ⟨none, none, none, some "api.qcloud.com", some "/", none, none,
   "cvm", "ap-guangzhou", "", "", none, none, none, none⟩

/-- Concrete host parameters carrying an empty-string host override. -/
def hostParamsEmptyOverride : HostParams :=
  ⟨"cvm", "ap-guangzhou", some "", some "api.qcloud.com", none, none⟩

theorem getField?_setField_self {α : Type} (l : List (String × α)) (k : String) (v : α) :
    getField? (setField l k v) k = some v := by
  induction l with
  | nil => simp [setField, getField?]
  | cons kv rest ih =>
      by_cases h : kv.1 = k
      · simp [setField, getField?, h]
      · simpa [setField, getField?, h] using ih

theorem getField?_setField_ne {α : Type} (l : List (String × α)) (k' k : String) (v : α)
    (h : k' ≠ k) : getField? (setField l k' v) k = getField? l k := by
  induction l with
  | nil => simp [setField, getField?, h]
  | cons kv rest ih =>
      by_cases h1 : kv.1 = k'
      · subst h1
        simp [setField, getField?, h]
      · simp [setField, getField?, h1, ih]

theorem keys_setField {α : Type} (l : List (String × α)) (k : String) (v : α) :
    keys (setField l k v) = if k ∈ keys l then keys l else keys l ++ [k] := by
  induction l with
  | nil => simp [setField, keys]
  | cons kv rest ih =>
      by_cases h : kv.1 = k
      · subst h
        simp [setField, keys]
      · have hne : ¬ k = kv.1 := fun hh => h hh.symm
        simp only [setField, if_neg h, keys, List.map_cons] at ih ⊢
        rw [ih]
        by_cases hm : k ∈ List.map Prod.fst rest
        · simp [hm, hne]
        · simp [hm, hne]

theorem nodup_keys_setField {α : Type} (l : List (String × α)) (k : String) (v : α)
    (h : (keys l).Nodup) : (keys (setField l k v)).Nodup := by
  rw [keys_setField]
  by_cases hm : k ∈ keys l
  · simpa [hm] using h
  · simp only [hm, if_false]
    simpa [List.nodup_append] using ⟨h, hm⟩

theorem nodup_keys_foldl_setField {α : Type} (l : List (String × α)) :
    ∀ acc : List (String × α), (keys acc).Nodup →
      (keys (l.foldl (fun a kv => setField a kv.1 kv.2) acc)).Nodup := by
  induction l with
  | nil => intro acc h; simpa using h
  | cons kv rest ih =>
      intro acc h
      simpa using ih (setField acc kv.1 kv.2) (nodup_keys_setField acc kv.1 kv.2 h)

theorem nodup_keys_mkObj {α : Type} (l : List (String × α)) : (keys (mkObj l)).Nodup := by
  simpa [mkObj] using nodup_keys_foldl_setField l [] (by simp [keys])

theorem setField_append {α : Type} (l : List (String × α)) (k : String) (v : α)
    (h : k ∉ keys l) : setField l k v = l ++ [(k, v)] := by
  induction l with
  | nil => simp [setField]
  | cons kv rest ih =>
      have h1 : ¬ kv.1 = k := by
        intro hh
        apply h
        show k ∈ kv.1 :: keys rest
        rw [hh]
        exact List.mem_cons_self _ _
      have h2 : k ∉ keys rest := by
        intro hh
        exact h (List.mem_cons_of_mem _ hh)
      simp [setField, h1, ih h2]

theorem foldl_setField_of_nodup {α : Type} (l : List (String × α)) :
    ∀ acc : List (String × α), (keys (acc ++ l)).Nodup →
      l.foldl (fun a kv => setField a kv.1 kv.2) acc = acc ++ l := by
  induction l with
  | nil => intro acc _; simp
  | cons kv rest ih =>
      intro acc h
      have hsplit : (keys acc ++ kv.1 :: keys rest).Nodup := by
        simpa [keys] using h
      have hk : kv.1 ∉ keys acc := by
        intro hmem
        rcases List.nodup_append.mp hsplit with ⟨-, -, hdisj⟩
        exact hdisj hmem (by simp)
      have hrest : (keys ((acc ++ [(kv.1, kv.2)]) ++ rest)).Nodup := by
        simpa [keys] using h
      calc (kv :: rest).foldl (fun a kv => setField a kv.1 kv.2) acc
      _ = rest.foldl (fun a kv => setField a kv.1 kv.2) (setField acc kv.1 kv.2) := by
        simp
      _ = rest.foldl (fun a kv => setField a kv.1 kv.2) (acc ++ [(kv.1, kv.2)]) := by
        rw [setField_append acc kv.1 kv.2 hk]
      _ = (acc ++ [(kv.1, kv.2)]) ++ rest := ih (acc ++ [(kv.1, kv.2)]) hrest
      _ = acc ++ kv :: rest := by simp

theorem mkObj_of_nodup {α : Type} (l : List (String × α)) (h : (keys l).Nodup) :
    mkObj l = l := by
  simpa [mkObj] using foldl_setField_of_nodup l [] (by simpa [keys] using h)

theorem mkObj_idem {α : Type} (l : List (String × α)) : mkObj (mkObj l) = mkObj l :=
  mkObj_of_nodup (mkObj l) (nodup_keys_mkObj l)

theorem flattenFields_scalarFields (l : List (String × JSScalar)) :
    flattenFields "" (scalarFields l) = l := by
  induction l with
  | nil => simp [scalarFields, flattenFields]
  | cons kv rest ih =>
      simp [scalarFields, flattenFields, flattenVal, joinKey] at ih ⊢
      exact ih

theorem foldl_append_concatPieces (f g : String → String) (hfg : ∀ k, f k = g k) :
    ∀ (l : List String) (acc : String),
      l.foldl (fun a k => a ++ f k) acc = acc ++ concatPieces (l.map g) := by
  intro l
  induction l with
  | nil =>
      intro acc
      simp [concatPieces, String.append_empty]
  | cons k ks ih =>
      intro acc
      simp only [List.foldl_cons, List.map_cons, concatPieces]
      rw [ih, hfg]
      simp [String.append_assoc]

theorem v1PairString_eq_refPiece (method : String) (flat : List (String × JSScalar))
    (k : String) : v1PairString method flat k = v1RefPiece method flat k := by
  unfold v1PairString v1RefPiece jsTruthyInt
  by_cases hk : k = ""
  · simp [hk]
  · by_cases hi : jsIndexOf k '_' = 0
    · simp [hk, hi]
    · simp [hk, hi]

theorem v1Qstr_eq_ref (method : String) (flat : List (String × JSScalar)) :
    v1Qstr method flat = v1QstrRef method flat := by
  unfold v1Qstr v1QstrRef
  rw [foldl_append_concatPieces (v1PairString method flat) (v1RefPiece method flat)
    (v1PairString_eq_refPiece method flat), String.empty_append]

theorem tencentSign_eq_ref (c : Crypto) (payload : List (String × JSValue))
    (o : CapiOptions) (Timestamp : Int) (date : String) :
    (tencentSign c payload o Timestamp date).result.Authorization =
      v3AuthorizationRef c payload o Timestamp date := by
  simp only [tencentSign, v3AuthorizationRef, v3SigningKey, sign, lfJoin, Option.getD,
    String.append_assoc]
  rfl

/-- A caller payload with a colliding dotted key next to an underscore key. -/
def c10Payload : List (String × JSValue) :=
  [("a_b", .scalar (.str "x")), ("a.b", .scalar (.str "y"))]

/-- A caller payload with a single underscore key. -/
def c10wPayload : List (String × JSValue) :=
  [("a_b", .scalar (.str "x"))]

/-- A `Capi` instance constructed with concrete credentials. -/
def st0 : CapiState :=
  capiInit [("ServiceType", .scalar (.str "cvm")), ("SecretId", .scalar (.str "id")),
    ("SecretKey", .scalar (.str "key"))]

/-- A concrete V1 request body. -/
def data0 : List (String × JSValue) :=
  [("Action", .scalar (.str "DescribeInstances")), ("Version", .scalar (.str "2017-03-12")),
   ("Foo", .scalar (.str "bar"))]

/-- A nested demonstration payload. -/
def demoPayload : List (String × JSValue) :=
  [("a", .obj [("b", .scalar (.str "x"))]), ("c", .arr [.scalar (.num 1)]),
   ("d", .scalar .null)]

/-- C1: for every V3 signing call, the returned `Authorization` value equals
the reference derivation built from the claim's own wording — canonical
request as the LF-joined five sections plus payload hash, string-to-sign,
the chained `k1`/`k2`/`k3` HMAC key derivation, lowercase-hex signature, and
the `TC3-HMAC-SHA256 Credential=...` template. -/
theorem tencentSign_authorization_reference (c : Crypto) (payload : List (String × JSValue))
    (o : CapiOptions) (Timestamp : Int) (date : String) :
    (tencentSign c payload o Timestamp date).result.Authorization =
      v3AuthorizationRef c payload o Timestamp date :=
  tencentSign_eq_ref c payload o Timestamp date

/-- C2: for every V1 signing call, the canonical query string built from the
flattened augmented parameter map equals the reference construction written
from the claim's wording (sorted keys, empty-key skip, the exact
`indexOf('_')` truthiness rewrite, the POST `@` skip, empty serialization of
undefined/null/NaN, `&key=value` concatenation with the leading `&`
stripped). -/
theorem tencentSignV1_query_string_reference (payload : List (String × JSValue))
    (o : CapiOptions) (Timestamp Nonce : Int) :
    v1Qstr (v1Method o) (dotQsFlatten (v1InjectFields payload o Timestamp Nonce)) =
      v1QstrRef (v1Method o) (dotQsFlatten (v1InjectFields payload o Timestamp Nonce)) :=
  v1Qstr_eq_ref _ _

/-- C3 counterexample: with no `SignatureMethod` configured, the stored V1
`Signature` is not the sha1 digest the claim prescribes — the `sign` helper
defaults its algorithm to sha256, so the claim's formula with `"sha1"` gives
a different value at this input. -/
theorem tencentSignV1_default_algorithm_not_sha1 :
    opts0.SignatureMethod = none ∧
    getField? (v1FinalPayload toyCrypto [] opts0 1 2) "Signature" ≠
      some (.str (base64Encode (toyCrypto.hmac "sha1" (utf8 opts0.SecretKey)
        (utf8 (v1Method opts0 ++ getHost (hostParamsOf opts0) true ++ jsUndefOr opts0.path ++
          "?" ++ v1Qstr (v1Method opts0) (dotQsFlatten (v1InjectFields [] opts0 1 2))))))) :=
  ⟨rfl, by decide⟩

/-- C3 (amended): the stored `Signature` parameter equals the base64 HMAC,
keyed by `SecretKey`, of `METHOD + HOST + PATH + '?' + queryString`, computed
with the configured algorithm, whose default is sha256 (not sha1) when no
`SignatureMethod` is configured on the signing call. -/
theorem tencentSignV1_signature_stored (c : Crypto) (payload : List (String × JSValue))
    (o : CapiOptions) (Timestamp Nonce : Int) :
    getField? (v1FinalPayload c payload o Timestamp Nonce) "Signature" =
      some (.str (base64Encode (c.hmac (o.SignatureMethod.getD "sha256") (utf8 o.SecretKey)
        (utf8 (v1Method o ++ getHost (hostParamsOf o) true ++ jsUndefOr o.path ++ "?" ++
          v1Qstr (v1Method o) (dotQsFlatten (v1InjectFields payload o Timestamp Nonce))))))) := by
  simp only [v1FinalPayload, sign]
  exact getField?_setField_self _ _ _

set_option maxRecDepth 20000 in
/-- C4 (code bug): `Capi.request` destructures a `payload` property that
`tencentSignV1`'s result does not have, so the V1 transport descriptor never
carries the signed parameters: the POST form is JS `undefined`, the non-POST
URL gains an empty query string, while the signer's `signPath` (which holds
every flattened parameter plus `Signature`) is dropped. -/
theorem capi_request_v1_transmits_no_parameters :
    (capiRequest toyCrypto st0 data0 [] false 100 "2021-01-01" 42).1.form =
      some (JSValue.scalar .undefined) ∧
    (capiRequest toyCrypto st0 data0 [("method", JSValue.scalar (.str "GET"))] false 100
      "2021-01-01" 42).1.url = "https://cvm.api.qcloud.com/?" ∧
    (tencentSignV1 toyCrypto data0 (optionsOfObj (assign st0.options [])) 100 42).result.signPath =
      "Action=DescribeInstances&Version=2017-03-12&Foo=bar&Region=ap-guangzhou&Nonce=42&Timestamp=100&SecretId=id&RequestClient=SDK_NODEJS_v0.0.1&Signature=BAOi" :=
  ⟨rfl, by decide, by decide⟩

/-- C5 counterexample: a V1 signing call mutates the caller's payload object —
starting from the empty object, the caller's map afterwards holds the five
injected standard fields. -/
theorem tencentSignV1_mutates_caller_payload :
    keys ((tencentSignV1 toyCrypto [] opts0 1 2).callerPayload) =
      ["Region", "Nonce", "Timestamp", "SecretId", "RequestClient"] ∧
    (tencentSignV1 toyCrypto [] opts0 1 2).callerPayload ≠ [] :=
  ⟨by decide, fun h => absurd (congrArg keys h) (by decide)⟩

/-- C5 (amended): `tencentSign` leaves the caller's payload unchanged, but
`tencentSignV1` mutates it in place with the injected standard fields
(`RequestClient` is always present afterwards), and `Capi.request` merges the
per-call `opts` into the instance's stored options, so overrides persist into
later calls. -/
theorem signing_mutation_behaviour (c : Crypto) (p : List (String × JSValue))
    (o : CapiOptions) (ts n ts2 : Int) (date : String) (st : CapiState)
    (data opts : List (String × JSValue)) (isV3 : Bool) (nonce : Int) :
    (tencentSign c p o ts2 date).callerPayload = p ∧
    (tencentSignV1 c p o ts n).callerPayload = v1InjectFields p o ts n ∧
    getField? ((tencentSignV1 c p o ts n).callerPayload) "RequestClient" =
      some (.scalar (.str "SDK_NODEJS_v0.0.1")) ∧
    (capiRequest c st data opts isV3 ts2 date nonce).2.options = assign st.options opts := by
  refine ⟨rfl, rfl, ?_, ?_⟩
  · show getField? (v1InjectFields p o ts n) "RequestClient" = _
    unfold v1InjectFields
    by_cases h : o.SignatureMethod = some "sha256"
    · simp only [h, if_pos]
      rw [getField?_setField_ne _ _ _ _ (by decide)]
      exact getField?_setField_self _ _ _
    · simp only [h, if_neg, if_false]
      exact getField?_setField_self _ _ _
  · unfold capiRequest
    by_cases h : (isV3 || jsTruthyV (getFieldV opts "isV3")) = true
    · simp [h]
    · simp only [h, if_false, Bool.false_eq_true]
      split
      · rfl
      · rfl

/-- C6 counterexample: an explicitly supplied empty-string host override is
not used verbatim — `getHost`'s falsy test treats it as absent and
synthesizes the host instead. -/
theorem getHost_empty_override_not_verbatim :
    hostParamsEmptyOverride.host = some "" ∧
    getHost hostParamsEmptyOverride false = "cvm.ap-guangzhou.api.qcloud.com" ∧
    getHost hostParamsEmptyOverride false ≠ "" :=
  ⟨rfl, by decide, by decide⟩

/-- C6 (amended): with no host override the resolved host is
`{ServiceType}.{Region}.{baseHost}` for V3 and `{ServiceType}.{baseHost}`
for V1; a non-empty host override is used verbatim in both schemes (an
empty-string override is treated as absent). -/
theorem getHost_resolution (ST R BH h : String) (hne : h ≠ "") :
    getHost ⟨ST, R, none, some BH, none, none⟩ false = ST ++ "." ++ R ++ "." ++ BH ∧
    getHost ⟨ST, R, none, some BH, none, none⟩ true = ST ++ "." ++ BH ∧
    getHost ⟨ST, R, some h, some BH, none, none⟩ false = h ∧
    getHost ⟨ST, R, some h, some BH, none, none⟩ true = h := by
  unfold getHost jsUndefOr
  simp [hne, String.append_assoc, String.empty_append]

theorem getHost_resolution_witness :
    getHost ⟨"cvm", "ap-guangzhou", none, some "api.qcloud.com", none, none⟩ false =
      "cvm" ++ "." ++ "ap-guangzhou" ++ "." ++ "api.qcloud.com" ∧
    getHost ⟨"cvm", "ap-guangzhou", none, some "api.qcloud.com", none, none⟩ true =
      "cvm" ++ "." ++ "api.qcloud.com" ∧
    getHost ⟨"cvm", "ap-guangzhou", some "my.custom.host", some "api.qcloud.com", none, none⟩
      false = "my.custom.host" ∧
    getHost ⟨"cvm", "ap-guangzhou", some "my.custom.host", some "api.qcloud.com", none, none⟩
      true = "my.custom.host" :=
  getHost_resolution "cvm" "ap-guangzhou" "api.qcloud.com" "my.custom.host" (by decide)

/-- C7: the flattener is idempotent — re-flattening a flattened map returns
it unchanged — and null and empty-string leaves are never dropped: they
flatten to themselves, and any flat map with distinct keys (in particular one
holding null or empty-string values) round-trips through the flattener. -/
theorem dotQsFlatten_idempotent_preserves_null_empty :
    ∀ fs : List (String × JSValue),
      dotQsFlatten (scalarFields (dotQsFlatten fs)) = dotQsFlatten fs ∧
      (∀ pre, flattenVal pre (.scalar .null) = [(pre, .null)] ∧
        flattenVal pre (.scalar (.str "")) = [(pre, .str "")]) ∧
      (∀ l : List (String × JSScalar), (keys l).Nodup →
        dotQsFlatten (scalarFields l) = l) := by
  intro fs
  refine ⟨?_, fun pre => ⟨rfl, rfl⟩, fun l hl => ?_⟩
  · show mkObj (flattenFields "" (scalarFields (mkObj (flattenFields "" fs)))) = _
    rw [flattenFields_scalarFields, mkObj_idem]
    rfl
  · show mkObj (flattenFields "" (scalarFields l)) = l
    rw [flattenFields_scalarFields, mkObj_of_nodup l hl]

theorem dotQsFlatten_idempotent_witness :
    dotQsFlatten (scalarFields (dotQsFlatten demoPayload)) = dotQsFlatten demoPayload ∧
    flattenVal "p" (.scalar .null) = [("p", .null)] ∧
    dotQsFlatten (scalarFields [("a", JSScalar.null), ("b", .str "")]) =
      [("a", JSScalar.null), ("b", .str "")] :=
  ⟨(dotQsFlatten_idempotent_preserves_null_empty demoPayload).1,
   ((dotQsFlatten_idempotent_preserves_null_empty demoPayload).2.1 "p").1,
   (dotQsFlatten_idempotent_preserves_null_empty demoPayload).2.2
     [("a", JSScalar.null), ("b", .str "")] (by decide)⟩

set_option maxRecDepth 20000 in
/-- C8 counterexample: with both credential fields missing (empty), the V3
signer does not fail — it returns an ordinary signed result whose key chain
is seeded by the bare `"TC3"` prefix (empty key material) and whose
`Authorization` carries an empty `SecretId`. -/
theorem missing_credentials_sign_proceeds :
    emptyCredOpts.SecretId = "" ∧ emptyCredOpts.SecretKey = "" ∧
    v3SigningKey toyCrypto emptyCredOpts "2021-01-01" =
      sign toyCrypto "tc3_request"
        (sign toyCrypto "cvm" (sign toyCrypto "2021-01-01" (utf8 "TC3") none) none) none ∧
    (tencentSign toyCrypto [] emptyCredOpts 0 "2021-01-01").result.Authorization =
      "TC3-HMAC-SHA256 Credential=/2021-01-01/cvm/tc3_request, SignedHeaders=content-type;host, Signature=060331" :=
  ⟨rfl, rfl, by decide, by decide⟩

/-- C8 (amended): no credential validation exists — when `SecretKey` is
missing (empty) the V3 signer proceeds, deriving its signing key from the
bare `"TC3"` string and returning the usual reference `Authorization`. -/
theorem missing_credentials_empty_key_material (c : Crypto) (p : List (String × JSValue))
    (o : CapiOptions) (ts : Int) (date : String) (h : o.SecretKey = "") :
    v3SigningKey c o date =
      sign c "tc3_request" (sign c o.ServiceType (sign c date (utf8 "TC3") none) none) none ∧
    (tencentSign c p o ts date).result.Authorization = v3AuthorizationRef c p o ts date := by
  constructor
  · unfold v3SigningKey
    rw [h]
    rfl
  · exact tencentSign_eq_ref c p o ts date

theorem missing_credentials_empty_key_material_witness :
    v3SigningKey toyCrypto emptyCredOpts "2021-01-01" =
      sign toyCrypto "tc3_request"
        (sign toyCrypto "cvm" (sign toyCrypto "2021-01-01" (utf8 "TC3") none) none) none ∧
    (tencentSign toyCrypto [] emptyCredOpts 0 "2021-01-01").result.Authorization =
      v3AuthorizationRef toyCrypto [] emptyCredOpts 0 "2021-01-01" :=
  missing_credentials_empty_key_material toyCrypto [] emptyCredOpts 0 "2021-01-01" rfl

/-- C9: the V3 signer is a pure function of its inputs — two runs with
identical payload, credentials, context, Timestamp and date return the
byte-identical result, and toggling the `debug` flag (which only changes the
emitted log lines) never alters any component of the returned value. -/
theorem tencentSign_deterministic_debug_independent (c : Crypto)
    (p : List (String × JSValue)) (o : CapiOptions) (ts : Int) (date : String)
    (b1 b2 : Option Bool) :
    (tencentSign c p (withDebug o b1) ts date).result =
      (tencentSign c p (withDebug o b2) ts date).result :=
  rfl

set_option maxRecDepth 20000 in
/-- C10 counterexample: when the flattened map also contains the dotted
rewrite of an underscore key, the value lookup does not miss — iterating the
key `a_b` (underscore at position 1) next to a stored key `a.b` contributes
`&a.b=y`, the collided key's real value, not an empty value. -/
theorem underscore_rewrite_collision_contributes_value :
    jsIndexOf "a_b" '_' = 1 ∧
    v1PairString "POST" (dotQsFlatten (v1InjectFields c10Payload opts0 1 2)) "a_b" =
      "&a.b=y" ∧
    v1PairString "POST" (dotQsFlatten (v1InjectFields c10Payload opts0 1 2)) "a_b" ≠
      "&" ++ underscoreToDot "a_b" ++ "=" :=
  ⟨by decide, by decide, by decide⟩

/-- C10 (amended): for a flattened key with an underscore at a non-zero
position whose dotted rewrite is not itself a key of the flattened map, the
rewritten key's lookup misses and the pair contributes `&dotted=` with an
empty value to the signed query string, while the final payload behind the
returned `signPath` still maps the original underscore key to its real
value. -/
theorem underscore_rewrite_misses_stored_value (c : Crypto)
    (payload : List (String × JSValue)) (o : CapiOptions) (ts n : Int)
    (k : String) (v : JSScalar) (method : String)
    (h1 : 0 < jsIndexOf k '_')
    (h2 : getField? (dotQsFlatten (v1InjectFields payload o ts n)) (underscoreToDot k) = none)
    (h3 : getField? (dotQsFlatten (v1InjectFields payload o ts n)) k = some v)
    (h4 : k ≠ "Signature") :
    v1PairString method (dotQsFlatten (v1InjectFields payload o ts n)) k =
      "&" ++ underscoreToDot k ++ "=" ∧
    getField? (v1FinalPayload c payload o ts n) k = some v := by
  constructor
  · have hk : ¬ k = "" := by
      intro hke
      subst hke
      exact absurd h1 (by decide)
    have hi : jsIndexOf k '_' ≠ 0 := by omega
    simp [v1PairString, hk, hi, getFieldS, h2, jsTruthyS, jsScalarToString,
      String.append_empty]
  · simp only [v1FinalPayload]
    rw [getField?_setField_ne _ _ _ _ (Ne.symm h4)]
    exact h3

set_option maxRecDepth 20000 in
theorem underscore_rewrite_misses_stored_value_witness :
    v1PairString "POST" (dotQsFlatten (v1InjectFields c10wPayload opts0 1 2)) "a_b" =
      "&" ++ underscoreToDot "a_b" ++ "=" ∧
    getField? (v1FinalPayload toyCrypto c10wPayload opts0 1 2) "a_b" =
      some (.str "x") :=
  underscore_rewrite_misses_stored_value toyCrypto c10wPayload opts0 1 2 "a_b" (.str "x")
    "POST" (by decide) (by decide) (by decide) (by decide)
